import Mathlib

/-!
Shallow embedding of `src/wineai.py` (a single-file Streamlit chat app) and
proofs about its conversation-state, prompt-assembly, splitting and error
handling logic.

Python strings are modelled as `List Char`; Python lists of dicts are modelled
with an explicit heap (`Session`) because dicts are mutable objects shared by
reference, which is load-bearing for the request-composer behaviour
(`list.copy()` is a shallow copy: the copied list holds the same dict
references as the original).
-/

namespace WineAI

/-- Python strings are modelled as lists of characters. -/
abbrev Str := List Char

/-- Fuel-indexed worker for Python `str.split(sep)` with a non-empty separator:
scan left to right; at each position, if `sep` matches there, cut the current
chunk and continue after the separator (non-overlapping, leftmost-first, which
is exactly CPython's semantics).  The fuel only drives the recursion and is
irrelevant once it exceeds the length of the input (`pySplitF_irrel`). -/
def pySplitF (sep : Str) : Nat → Str → List Str
  | 0, s => [s]
  | _ + 1, [] => [[]]
  | fuel + 1, c :: rest =>
    if sep ≠ [] ∧ sep.isPrefixOf (c :: rest) then
      [] :: pySplitF sep fuel (List.drop sep.length (c :: rest))
    else
      match pySplitF sep fuel rest with
      | [] => [[c]]
      | chunk :: chunks => (c :: chunk) :: chunks

/-- Python `s.split(sep)` for a non-empty separator `sep`. -/
def pySplit (sep s : Str) : List Str := pySplitF sep (s.length + 1) s

/-- Python `s.strip()`: remove leading and trailing whitespace. -/
def pyStrip (s : Str) : Str :=
  ((s.dropWhile Char.isWhitespace).reverse.dropWhile Char.isWhitespace).reverse

/-- `sep` occurs as a (contiguous) substring of `s` — the meaning of
Python's `sep in s`. -/
def Occurs (sep s : Str) : Prop := ∃ pre suf, s = pre ++ sep ++ suf

/-- The character `'\n'` on which `wineai.py` splits responses into lines. -/
def newlineChar : Char := '\n'

/-- The fixed marker substring of `wineai.py` line 149. -/
def MARKER : Str := "Image Search Suggestion:".toList

/-- Lines 147–156 of `wineai.py`:

    image_search_term = None
    lines = assistant_response.split('\n')
    if lines and "Image Search Suggestion:" in lines[-1]:
        try:
            image_search_term = lines[-1].split("Image Search Suggestion:")[1].strip()
            assistant_response = "\n".join(lines[:-1]).strip()
        except IndexError:
            pass

Notes on the embedding: `lines` is never empty (Python `split` always returns
at least one element), so the `lines and` conjunct is vacuous; the membership
test `sep in s` holds iff `s.split(sep)` has at least two parts
(`occurs_iff_two_le_length`); `[1]` is the second element of the split and
raises `IndexError` when absent, in which case the handler keeps the response
unchanged and the term `None` — the `none` branch of the inner match. -/
def splitSuggestion (resp : Str) : Str × Option Str :=
  let lines := pySplit [newlineChar] resp
  let lastLine := lines.getLastD []
  let parts := pySplit MARKER lastLine
  if 2 ≤ parts.length then
    match parts[1]? with
    | some piece =>
        (pyStrip (List.intercalate [newlineChar] lines.dropLast), some (pyStrip piece))
    | none => (resp, none)
  else
    (resp, none)

example : pySplit ['a'] "xaybza".toList = ["x".toList, "ybz".toList, []] := by decide

example : pySplit (['a', 'a']) "aaa".toList = [[], ['a']] := by decide

example :
    splitSuggestion "Line1\nLine2\nImage Search Suggestion: Foo Bar".toList
      = ("Line1\nLine2".toList, some "Foo Bar".toList) := by decide

example :
    splitSuggestion "Line1\nImage Search Suggestion:".toList
      = ("Line1".toList, some []) := by decide

example :
    splitSuggestion "Just a reply with no marker".toList
      = ("Just a reply with no marker".toList, none) := by decide

example :
    splitSuggestion "Image Search Suggestion: A Image Search Suggestion: B".toList
      = ([], some "A".toList) := by decide

/-! ## Sidebar filters and their serialization (`wineai.py` lines 52–67, 120) -/

/-- Decimal rendering of a price bound, as Python string formatting does. -/
def natStr (n : Nat) : Str := (Nat.repr n).toList

/-- Line 67: `price_range_str = f"${min_price} - ${max_price}"`. -/
def price_range_str (minPrice maxPrice : Nat) : Str :=
  "$".toList ++ natStr minPrice ++ " - $".toList ++ natStr maxPrice

/-- Line 120: the f-string

    f"User Preferences: Grape=[{selected_grape if selected_grape != 'Any' else 'Not Specified'}],
      Region=[{selected_region if selected_region != 'Any' else 'Not Specified'}],
      Price Range=[{price_range_str}]."  (one line in the source) -/
def filter_context (grape region : Str) (minPrice maxPrice : Nat) : Str :=
  "User Preferences: Grape=[".toList
    ++ (if grape ≠ "Any".toList then grape else "Not Specified".toList)
    ++ "], Region=[".toList
    ++ (if region ≠ "Any".toList then region else "Not Specified".toList)
    ++ "], Price Range=[".toList
    ++ price_range_str minPrice maxPrice
    ++ "].".toList

/-- The serialization template in the words of the spec (§4.3 step 2):
`"User Preferences: Grape=[<grape-or-'Not Specified'>],
Region=[<region-or-'Not Specified'>], Price Range=[$<min> - $<max>]."`,
where a selection equal to `"Any"` is the unspecified one.  Kept as a separate
definition so the code-side `filter_context` can be compared against it. -/
def specSerializeFilters (grape region : Str) (minPrice maxPrice : Nat) : Str :=
  "User Preferences: Grape=[".toList
    ++ (if grape ≠ "Any".toList then grape else "Not Specified".toList)
    ++ "], Region=[".toList
    ++ (if region ≠ "Any".toList then region else "Not Specified".toList)
    ++ "], Price Range=[$".toList ++ natStr minPrice
    ++ " - $".toList ++ natStr maxPrice
    ++ "].".toList

example :
    filter_context "Any".toList "Napa Valley (USA)".toList 20 80
      = "User Preferences: Grape=[Not Specified], Region=[Napa Valley (USA)], Price Range=[$20 - $80].".toList := by
  decide

/-! ## The conversation log as a Python object heap

`st.session_state.messages` is a Python list of dicts.  Dicts are mutable
objects handled by reference, and `list.copy()` (line 122) is a *shallow*
copy: the new list contains the same dict references.  To be faithful to
that, a `Session` carries a heap of message records (`heap`, indexed by
allocation order) and the list of references held by
`st.session_state.messages` (`refs`). -/

/-- A message dict `{"role": ..., "content": ...}`. -/
structure Message where
  role : Str
  content : Str
deriving DecidableEq, Repr

/-- The session heap: `heap` maps a dict reference (its index) to the dict's
current contents; `refs` is the Python list `st.session_state.messages`. -/
structure Session where
  heap : List Message
  refs : List Nat
deriving DecidableEq, Repr

def roleSystem : Str := "system".toList
def roleUser : Str := "user".toList
def roleAssistant : Str := "assistant".toList

/-- `st.session_state.messages.append({...})`: allocate a fresh dict and
append its reference. -/
def appendMsg (s : Session) (m : Message) : Session :=
  ⟨s.heap ++ [m], s.refs ++ [s.heap.length]⟩

/-- The sequence of message values the log currently denotes (reading every
reference through the heap). -/
def contentsOf (s : Session) : List Message :=
  s.refs.map (fun r => s.heap.getD r ⟨[], []⟩)

/-- Every reference in the log points into the heap — true of every state the
program actually builds, since references are only created by allocation. -/
def WfSession (s : Session) : Prop := ∀ r ∈ s.refs, r < s.heap.length

/-- Line 124's replacement content:
`f"{filter_context}\n\nUser Mood/Request: {user_input}"`. -/
def injectedContent (filterCtx userInput : Str) : Str :=
  filterCtx ++ "\n\nUser Mood/Request: ".toList ++ userInput

/-- Lines 122–124 of `wineai.py`:

    messages_for_api = st.session_state.messages.copy()
    messages_for_api[-1]["content"] = f"{filter_context}\n\nUser Mood/Request: {user_input}"

`list.copy()` duplicates only the list of references, so `messages_for_api`
is the same list of dict references as the stored log and the assignment
mutates the dict that both lists reference.  Returns the updated session and
the reference list handed to the API. -/
def composeForApi (s : Session) (filterCtx userInput : Str) : Session × List Nat :=
  let messages_for_api := s.refs
  match messages_for_api.getLast? with
  | none => (s, messages_for_api)
  | some r =>
      let old := s.heap.getD r ⟨[], []⟩
      (⟨s.heap.set r ⟨old.role, injectedContent filterCtx userInput⟩, s.refs⟩,
       messages_for_api)

/-! ## Fixed texts of the source (`wineai.py` lines 29–41, 76, 181, 185) -/

/-- Lines 29–41: the triple-quoted `SYSTEM_PRE_PROMPT` (it begins and ends
with a newline, as the Python literal does). -/
def SYSTEM_PRE_PROMPT : Str :=
  ("\nYou are WineAI, a highly knowledgeable, friendly, and sophisticated virtual sommelier.\nYour goal is to help users discover the perfect wine based on their mood, preferences (grape variety, region, price), and any other context they provide.\nRespond in a conversational, evocative, and informative style, like a real sommelier guiding a guest.\nWhen recommending a wine, provide:\n1.  **Specific Wine Suggestion:** Name a specific wine (e.g., \"Cloudy Bay Sauvignon Blanc\", \"Château Margaux\", \"La Crema Sonoma Coast Chardonnay\"). If possible, suggest a vintage or producer known for quality within the user\x27s price range.\n2.  **Reasoning:** Explain *why* this wine fits the user\x27s mood and preferences (e.g., \"For a celebratory mood, this Champagne offers vibrant bubbles and notes of brioche...\").\n3.  **Tasting Notes:** Describe the likely aroma and flavor profile (e.g., \"Expect aromas of blackcurrant, cedar, and a hint of tobacco, with a palate showing dark fruit, firm tannins, and a long finish.\").\n4.  **Food Pairing Ideas:** Suggest 1-2 food pairings that would complement the wine.\n5.  **Consider Filters:** Strictly adhere to the user\x27s specified Grape Variety, Region, and Price Range filters if they are provided and not set to \x27Any\x27. If filters make a request impossible, politely explain why and suggest alternatives.\n6.  **Be Conversational:** Engage the user, ask clarifying questions if needed, but prioritize giving a recommendation based on the input.\n7.  **Image Suggestion (Important):** At the end of your recommendation, include a line formatted *exactly* like this: \x60Image Search Suggestion: [Specific Wine Name Bottle]\x60. For example: \x60Image Search Suggestion: Whispering Angel Rosé Bottle\x60. Do not add any other text on this line.\n").toList

/-- Line 76: the fixed assistant welcome message. -/
def WELCOME_MESSAGE : Str :=
  "Welcome to WineAI! How are you feeling today, and what kind of wine experience are you looking for?".toList

/-- Line 181: the apology substituted on `openai.APIError`. -/
def APOLOGY_API_ERROR : Str :=
  "Sorry, I encountered an error connecting to the wine knowledge base. Please try again.".toList

/-- Line 185: the apology substituted on any other exception. -/
def APOLOGY_UNEXPECTED : Str :=
  "Apologies, a technical glitch occurred. Please try again.".toList

/-! ## Chat initialization and history display (`wineai.py` lines 70–84) -/

/-- The log seeded by lines 70–77: a fresh list holding the system dict, then
the appended welcome dict. -/
def seededSession : Session :=
  appendMsg (appendMsg ⟨[], []⟩ ⟨roleSystem, SYSTEM_PRE_PROMPT⟩)
    ⟨roleAssistant, WELCOME_MESSAGE⟩

/-- Lines 70–77: `if "messages" not in st.session_state:` seed the log,
otherwise leave the existing one alone.  `none` models the absence of the
`messages` key in `st.session_state`. -/
def initializeMessages : Option Session → Option Session
  | none => some seededSession
  | some s => some s

/-- Lines 80–84: the chat history rendered to the user — every stored message
whose role is not `"system"`, in order. -/
def historyOf (s : Session) : List Message :=
  (contentsOf s).filter (fun m => decide (m.role ≠ roleSystem))

/-! ## One interaction turn (`wineai.py` lines 107–189) -/

/-- The outcome of the single `openai.chat.completions.create` call (line
135), as seen by the handler: a raw completion text, an `openai.APIError`, or
any other exception. -/
inductive ApiOutcome where
  | success (raw : Str)
  | apiError (detail : Str)
  | unexpectedError (detail : Str)
deriving DecidableEq, Repr

/-- What one execution of the input handler leaves behind: the session, and
the observable effects of the turn. -/
structure TurnView where
  session : Session
  apiCalled : Bool
  errorBanner : Bool
  displayed : Str
  imageSearchTerm : Option Str
deriving DecidableEq, Repr

/-- Lines 113–189 of `wineai.py`, the handler guarded by `if user_input:`.
`userInput` is `st.chat_input`'s value (`None` when nothing was submitted);
Python string truthiness makes `""` skip the handler too.  Inside the guard:
append the user dict (115), build `filter_context` (120), shallow-copy and
rewrite the last message for the API (122–124), call the API once (135), on
success strip the reply (143) and split off the suggestion line (147–156),
on `openai.APIError` / any exception show an error banner and substitute the
fixed apology (179–186); finally append the assistant dict (189). -/
def runTurn (s : Session) (userInput : Option Str) (grape region : Str)
    (minPrice maxPrice : Nat) (outcome : ApiOutcome) : TurnView :=
  match userInput with
  | none => ⟨s, false, false, [], none⟩
  | some u =>
    if u = [] then ⟨s, false, false, [], none⟩
    else
      let s1 := appendMsg s ⟨roleUser, u⟩
      let fc := filter_context grape region minPrice maxPrice
      let s2 := (composeForApi s1 fc u).1
      match outcome with
      | .success raw =>
          let stripped := pyStrip raw
          let split := splitSuggestion stripped
          ⟨appendMsg s2 ⟨roleAssistant, split.1⟩, true, false, split.1, split.2⟩
      | .apiError _ =>
          ⟨appendMsg s2 ⟨roleAssistant, APOLOGY_API_ERROR⟩, true, true,
           APOLOGY_API_ERROR, none⟩
      | .unexpectedError _ =>
          ⟨appendMsg s2 ⟨roleAssistant, APOLOGY_UNEXPECTED⟩, true, true,
           APOLOGY_UNEXPECTED, none⟩

/-! ## Startup credential check (`wineai.py` lines 9–26) -/

/-- How startup ends: proceed with a key, or warn and `st.stop()`. -/
inductive StartupOutcome where
  | proceeded (key : Str)
  | halted
deriving DecidableEq, Repr

/-- Lines 9–26: try `st.secrets["openai"]["api_key"]` (`none` models the
`KeyError`/`AttributeError` of a missing secret); on failure fall back to
`os.getenv("OPENAI_API_KEY")` (`none` models an unset variable), which is
used only if truthy, i.e. non-empty; otherwise `st.warning(...)` and
`st.stop()`. -/
def startupCheck (secret envVar : Option Str) : StartupOutcome :=
  match secret with
  | some k => .proceeded k
  | none =>
    match envVar with
    | some k => if k = [] then .halted else .proceeded k
    | none => .halted

/-- A whole script run: the credential check happens before any widget or
handler code, and `st.stop()` prevents everything after it, so a halted
startup shows the warning (the `Bool`) and never reaches the turn handler. -/
def appStep (secret envVar : Option Str) (s : Session) (userInput : Option Str)
    (grape region : Str) (minPrice maxPrice : Nat) (outcome : ApiOutcome) :
    Bool × TurnView :=
  match startupCheck secret envVar with
  | .halted => (true, ⟨s, false, false, [], none⟩)
  | .proceeded _ =>
      (false, runTurn s userInput grape region minPrice maxPrice outcome)

/-! ## Lemmas about `pySplit` -/

theorem pySplitF_ne_nil (sep : Str) (fuel : Nat) (s : Str) :
    pySplitF sep fuel s ≠ [] := by
  match fuel, s with
  | 0, s => simp [pySplitF]
  | _ + 1, [] => simp [pySplitF]
  | fuel + 1, c :: rest =>
    simp only [pySplitF]
    split
    · simp
    · split <;> simp

theorem pySplitF_irrel (sep : Str) :
    ∀ f₁ f₂ s, s.length < f₁ → s.length < f₂ →
      pySplitF sep f₁ s = pySplitF sep f₂ s := by
  intro f₁
  induction f₁ with
  | zero => intro f₂ s h₁ _; omega
  | succ a ih =>
    intro f₂ s h₁ h₂
    match f₂, s with
    | 0, s => omega
    | b + 1, [] => simp [pySplitF]
    | b + 1, c :: rest =>
      simp only [pySplitF]
      split
      · next hcond =>
          have hseplen : 1 ≤ sep.length :=
            List.length_pos.mpr hcond.1
          have hlen : (List.drop sep.length (c :: rest)).length < a := by
            simp only [List.length_drop, List.length_cons] at *
            omega
          have hlen' : (List.drop sep.length (c :: rest)).length < b := by
            simp only [List.length_drop, List.length_cons] at *
            omega
          rw [ih b _ hlen hlen']
      · have hr : rest.length < a := by
          simp only [List.length_cons] at h₁; omega
        have hr' : rest.length < b := by
          simp only [List.length_cons] at h₂; omega
        rw [ih b rest hr hr']

theorem pySplitF_no_occurs (sep : Str) (_hsep : sep ≠ []) :
    ∀ s fuel, s.length < fuel → ¬ Occurs sep s → pySplitF sep fuel s = [s] := by
  intro s
  induction s with
  | nil =>
    intro fuel hf _
    match fuel with
    | f + 1 => simp [pySplitF]
  | cons c rest ih =>
    intro fuel hf hocc
    match fuel with
    | f + 1 =>
      simp only [pySplitF]
      split
      · next hcond =>
          exact absurd
            (by
              obtain ⟨t, ht⟩ := List.isPrefixOf_iff_prefix.mp hcond.2
              exact ⟨[], t, by simpa using ht.symm⟩)
            hocc
      · have hrest : ¬ Occurs sep rest := by
          rintro ⟨p, q, hpq⟩
          exact hocc ⟨c :: p, q, by simp [hpq]⟩
        have hlen : rest.length < f := by
          simp only [List.length_cons] at hf; omega
        rw [ih f hlen hrest]

theorem pySplit_no_occurs (sep s : Str) (hsep : sep ≠ []) (h : ¬ Occurs sep s) :
    pySplit sep s = [s] :=
  pySplitF_no_occurs sep hsep s (s.length + 1) (Nat.lt_succ_self _) h

theorem pySplitF_first_occ (sep : Str) (hsep : sep ≠ []) :
    ∀ pre suf fuel, (pre ++ sep ++ suf).length < fuel →
      (∀ p q, pre ++ sep ++ suf = p ++ sep ++ q → pre.length ≤ p.length) →
      pySplitF sep fuel (pre ++ sep ++ suf) = pre :: pySplit sep suf := by
  intro pre
  induction pre with
  | nil =>
    intro suf fuel hf _
    match sep, hsep with
    | d :: sepTl, _ =>
      match fuel with
      | f + 1 =>
        have hgoal : ([] : Str) ++ (d :: sepTl) ++ suf = d :: (sepTl ++ suf) := by
          simp
        rw [hgoal]
        have hlen : suf.length < f := by
          rw [hgoal] at hf
          simp only [List.length_cons, List.length_append] at hf
          omega
        simp only [pySplitF, List.append_eq]
        rw [if_pos ⟨by simp, List.isPrefixOf_iff_prefix.mpr ⟨suf, by simp⟩⟩]
        have hdrop :
            List.drop (d :: sepTl).length (d :: (sepTl ++ suf)) = suf := by
          have h := List.drop_left (d :: sepTl) suf
          simp only [List.cons_append] at h
          exact h
        rw [hdrop,
          pySplitF_irrel (d :: sepTl) f (suf.length + 1) suf hlen
            (Nat.lt_succ_self _)]
        rfl
  | cons c preTl ih =>
    intro suf fuel hf hmin
    match fuel with
    | f + 1 =>
      have hgoal : (c :: preTl) ++ sep ++ suf = c :: (preTl ++ sep ++ suf) := by
        simp
      rw [hgoal]
      have hrec :
          pySplitF sep f (preTl ++ sep ++ suf) = preTl :: pySplit sep suf := by
        apply ih
        · rw [hgoal] at hf
          simp only [List.length_cons] at hf
          omega
        · intro p q hpq
          have := hmin (c :: p) q (by simp [hpq])
          simpa using this
      simp only [pySplitF, List.append_eq]
      rw [if_neg]
      · rw [hrec]
      · rintro ⟨-, hpref⟩
        obtain ⟨t, ht⟩ := List.isPrefixOf_iff_prefix.mp hpref
        have hocc : c :: (preTl ++ sep ++ suf) = [] ++ sep ++ t := by
          simpa using ht.symm
        rw [← hgoal] at hocc
        have := hmin [] t hocc
        simp at this

theorem pySplit_first_occ (sep : Str) (hsep : sep ≠ []) (pre suf : Str)
    (hmin : ∀ p q, pre ++ sep ++ suf = p ++ sep ++ q → pre.length ≤ p.length) :
    pySplit sep (pre ++ sep ++ suf) = pre :: pySplit sep suf :=
  pySplitF_first_occ sep hsep pre suf _ (Nat.lt_succ_self _) hmin

theorem pySplitF_occurs_two_le (sep : Str) (hsep : sep ≠ []) :
    ∀ s fuel, s.length < fuel → Occurs sep s →
      2 ≤ (pySplitF sep fuel s).length := by
  intro s
  induction s with
  | nil =>
    intro fuel _ hocc
    obtain ⟨p, q, hpq⟩ := hocc
    have : sep = [] := by
      have := congrArg List.length hpq
      simp at this
      exact List.eq_nil_of_length_eq_zero (by omega)
    exact absurd this hsep
  | cons c rest ih =>
    intro fuel hf hocc
    match fuel with
    | f + 1 =>
      simp only [pySplitF]
      split
      · have := pySplitF_ne_nil sep f (List.drop sep.length (c :: rest))
        simp only [List.length_cons]
        have : 1 ≤ (pySplitF sep f (List.drop sep.length (c :: rest))).length :=
          Nat.one_le_iff_ne_zero.mpr (by simpa using this)
        omega
      · next hcond =>
          obtain ⟨p, q, hpq⟩ := hocc
          match p, hpq with
          | [], hpq =>
            exact absurd
              ⟨hsep, List.isPrefixOf_iff_prefix.mpr ⟨q, by simpa using hpq.symm⟩⟩
              hcond
          | c' :: p2, hpq =>
            have hrest : rest = p2 ++ sep ++ q := by
              have := congrArg List.tail hpq
              simpa using this
            have hlen : rest.length < f := by
              simp only [List.length_cons] at hf; omega
            have h2 := ih f hlen ⟨p2, q, hrest⟩
            cases hps : pySplitF sep f rest with
            | nil => exact absurd hps (pySplitF_ne_nil sep f rest)
            | cons chunk chunks =>
              rw [hps] at h2
              show 2 ≤ ((c :: chunk) :: chunks).length
              simp only [List.length_cons] at h2 ⊢
              omega

theorem occurs_iff_two_le_length (sep s : Str) (hsep : sep ≠ []) :
    Occurs sep s ↔ 2 ≤ (pySplit sep s).length := by
  constructor
  · intro h
    exact pySplitF_occurs_two_le sep hsep s (s.length + 1) (Nat.lt_succ_self _) h
  · intro h2
    by_contra hno
    rw [pySplit_no_occurs sep s hsep hno] at h2
    simp at h2

/-! ## Lemmas about the session heap -/

theorem wf_appendMsg (s : Session) (m : Message) (hwf : WfSession s) :
    WfSession (appendMsg s m) := by
  intro r hr
  simp only [appendMsg, List.mem_append, List.mem_singleton] at hr
  simp only [appendMsg, List.length_append, List.length_cons, List.length_nil]
  rcases hr with h | h
  · have := hwf r h; omega
  · omega

theorem contentsOf_appendMsg (s : Session) (m : Message) (hwf : WfSession s) :
    contentsOf (appendMsg s m) = contentsOf s ++ [m] := by
  simp only [contentsOf, appendMsg, List.map_append, List.map_cons, List.map_nil]
  congr 1
  · apply List.map_congr_left
    intro r hr
    have hlt : r < s.heap.length := hwf r hr
    simp [List.getD_eq_getElem?_getD, List.getElem?_append_left hlt]
  · simp [List.getD_eq_getElem?_getD,
      List.getElem?_append_right (le_refl s.heap.length)]

theorem getLastD_contentsOf_appendMsg (s : Session) (m : Message) (d : Message) :
    (contentsOf (appendMsg s m)).getLastD d = m := by
  simp only [contentsOf, appendMsg, List.map_append, List.map_cons, List.map_nil]
  rw [List.getLastD_concat]
  simp [List.getD_eq_getElem?_getD,
    List.getElem?_append_right (le_refl s.heap.length)]

theorem wf_composeForApi (s : Session) (fc u : Str) (hwf : WfSession s) :
    WfSession (composeForApi s fc u).1 := by
  simp only [composeForApi]
  cases h : s.refs.getLast? with
  | none => exact hwf
  | some r =>
      intro x hx
      simp only [List.length_set] at hx ⊢
      exact hwf x hx

/-- The net effect on the stored log of lines 115 and 122–124 together:
appending the user's message and then "copying" the log for the API rewrites
the freshly appended message in place, so the log now ends in the
filter-injected text rather than the user's original words. -/
theorem contentsOf_compose_appendUser (s : Session) (fc u : Str)
    (hwf : WfSession s) :
    contentsOf (composeForApi (appendMsg s ⟨roleUser, u⟩) fc u).1
      = contentsOf s ++ [⟨roleUser, injectedContent fc u⟩] := by
  have hlast : ((appendMsg s ⟨roleUser, u⟩).refs).getLast? = some s.heap.length := by
    simp only [appendMsg]
    exact List.getLast?_concat _
  have hold :
      ((appendMsg s ⟨roleUser, u⟩).heap).getD s.heap.length ⟨[], []⟩
        = ⟨roleUser, u⟩ := by
    simp only [appendMsg]
    simp [List.getD_eq_getElem?_getD,
      List.getElem?_append_right (le_refl s.heap.length)]
  simp only [composeForApi]
  rw [hlast]
  simp only [hold]
  simp only [contentsOf, appendMsg, List.map_append, List.map_cons, List.map_nil]
  congr 1
  · apply List.map_congr_left
    intro r hr
    have hlt : r < s.heap.length := hwf r hr
    have hne : s.heap.length ≠ r := by omega
    simp [List.getD_eq_getElem?_getD, List.getElem?_set_ne hne,
      List.getElem?_append_left hlt]
  · have hsetlt : s.heap.length < (s.heap ++ [(⟨roleUser, u⟩ : Message)]).length := by
      simp
    simp [List.getD_eq_getElem?_getD, List.getElem?_set_self hsetlt]

/-- The assistant text that reaches the log at line 189, by outcome. -/
def assistantStoredText (outcome : ApiOutcome) : Str :=
  match outcome with
  | .success raw => (splitSuggestion (pyStrip raw)).1
  | .apiError _ => APOLOGY_API_ERROR
  | .unexpectedError _ => APOLOGY_UNEXPECTED

/-- The net effect of a full non-empty turn on the stored log: the old
entries survive unchanged, then the (filter-injected) user entry, then the
assistant entry. -/
theorem contentsOf_runTurn (s : Session) (u : Str) (hu : u ≠ [])
    (hwf : WfSession s) (grape region : Str) (minPrice maxPrice : Nat)
    (outcome : ApiOutcome) :
    contentsOf (runTurn s (some u) grape region minPrice maxPrice outcome).session
      = contentsOf s
        ++ [⟨roleUser, injectedContent (filter_context grape region minPrice maxPrice) u⟩,
            ⟨roleAssistant, assistantStoredText outcome⟩] := by
  have hwf2 : WfSession (composeForApi (appendMsg s ⟨roleUser, u⟩)
      (filter_context grape region minPrice maxPrice) u).1 :=
    wf_composeForApi _ _ _ (wf_appendMsg s _ hwf)
  have hmid := contentsOf_compose_appendUser s
    (filter_context grape region minPrice maxPrice) u hwf
  cases outcome with
  | success raw =>
      simp only [runTurn, if_neg hu, assistantStoredText]
      rw [contentsOf_appendMsg _ _ hwf2, hmid]
      simp
  | apiError detail =>
      simp only [runTurn, if_neg hu, assistantStoredText]
      rw [contentsOf_appendMsg _ _ hwf2, hmid]
      simp
  | unexpectedError detail =>
      simp only [runTurn, if_neg hu, assistantStoredText]
      rw [contentsOf_appendMsg _ _ hwf2, hmid]
      simp

/-! ## Characterization of the splitter -/

theorem MARKER_ne_nil : MARKER ≠ [] := by decide

/-- When the last line decomposes as `pre ++ MARKER ++ suf` around the first
marker occurrence and no further occurrence follows, the splitter removes the
marker line and returns the trimmed text after the marker. -/
theorem splitSuggestion_of_last_eq (raw pre suf : Str)
    (hlast : (pySplit [newlineChar] raw).getLastD [] = pre ++ MARKER ++ suf)
    (hmin : ∀ p q, pre ++ MARKER ++ suf = p ++ MARKER ++ q → pre.length ≤ p.length)
    (hnoc : ¬ Occurs MARKER suf) :
    splitSuggestion raw
      = (pyStrip (List.intercalate [newlineChar] (pySplit [newlineChar] raw).dropLast),
         some (pyStrip suf)) := by
  have hparts : pySplit MARKER (pre ++ MARKER ++ suf) = [pre, suf] := by
    rw [pySplit_first_occ MARKER MARKER_ne_nil pre suf hmin,
      pySplit_no_occurs MARKER suf MARKER_ne_nil hnoc]
  simp only [splitSuggestion]
  rw [hlast, hparts]
  simp

/-- When the last line does not contain the marker at all, the splitter
returns the input unchanged with no suggestion. -/
theorem splitSuggestion_of_no_marker (raw : Str)
    (hno : ¬ Occurs MARKER ((pySplit [newlineChar] raw).getLastD [])) :
    splitSuggestion raw = (raw, none) := by
  have h1 : pySplit MARKER ((pySplit [newlineChar] raw).getLastD [])
      = [(pySplit [newlineChar] raw).getLastD []] :=
    pySplit_no_occurs MARKER _ MARKER_ne_nil hno
  simp only [splitSuggestion]
  rw [h1]
  simp

/-! ## The claims -/

/-- Claim C1 (code bug exhibited): composing the outbound request does NOT
leave the stored log's last message untouched.  Because `list.copy()` is a
shallow copy, the assignment `messages_for_api[-1]["content"] = ...` mutates
the dict also referenced by `st.session_state.messages`: after composing a
turn for input `"hi"` with filters (grape "Any", region "Napa Valley (USA)",
price 20–80), the stored log's last message content is the filter-injected
string, not the user's original `"hi"`. -/
theorem composer_mutates_stored_log :
    ((contentsOf (composeForApi (appendMsg seededSession ⟨roleUser, "hi".toList⟩)
          (filter_context "Any".toList "Napa Valley (USA)".toList 20 80)
          "hi".toList).1).getLastD ⟨[], []⟩).content
        = injectedContent
            (filter_context "Any".toList "Napa Valley (USA)".toList 20 80)
            "hi".toList
    ∧ ((contentsOf (composeForApi (appendMsg seededSession ⟨roleUser, "hi".toList⟩)
          (filter_context "Any".toList "Napa Valley (USA)".toList 20 80)
          "hi".toList).1).getLastD ⟨[], []⟩).content
        ≠ "hi".toList := by
  constructor
  · decide
  · decide

/-- Claim C2 (counterexample to the claim as stated): on
`"Line1\nImage Search Suggestion:"` the splitter returns displayText
`"Line1"` — the preceding lines — and suggestion `""`; it does NOT fall back
to the whole raw text as displayText. -/
theorem splitter_malformed_marker_keeps_prefix :
    splitSuggestion "Line1\nImage Search Suggestion:".toList
        = ("Line1".toList, some [])
    ∧ "Line1".toList ≠ "Line1\nImage Search Suggestion:".toList := by
  constructor
  · decide
  · decide

/-- Claim C2 (amended): when the last line consists of text followed by the
marker with nothing (or only whitespace) after it, the splitter completes
normally (the guarded `IndexError` branch is not taken): it returns
suggestedImageQuery = `""` (the empty string, treated downstream as no
suggestion) and displayText = the preceding lines rejoined and trimmed, the
marker line being removed. -/
theorem splitter_malformed_marker_no_throw :
    ∀ raw pre suf : Str,
      (pySplit [newlineChar] raw).getLastD [] = pre ++ MARKER ++ suf →
      (∀ p q, pre ++ MARKER ++ suf = p ++ MARKER ++ q → pre.length ≤ p.length) →
      ¬ Occurs MARKER suf →
      pyStrip suf = [] →
      splitSuggestion raw
        = (pyStrip (List.intercalate [newlineChar]
            (pySplit [newlineChar] raw).dropLast), some []) := by
  intro raw pre suf hlast hmin hnoc hstrip
  rw [splitSuggestion_of_last_eq raw pre suf hlast hmin hnoc, hstrip]

/-- Witness for `splitter_malformed_marker_no_throw` at the spec's own
malformed input `"Line1\nImage Search Suggestion:"` (so `pre = "Line1"`-less
last line: `pre = []`, `suf = []`). -/
theorem splitter_malformed_marker_no_throw_witness :
    splitSuggestion "Line1\nImage Search Suggestion:".toList
      = (pyStrip (List.intercalate [newlineChar]
          (pySplit [newlineChar] "Line1\nImage Search Suggestion:".toList).dropLast),
         some []) :=
  splitter_malformed_marker_no_throw "Line1\nImage Search Suggestion:".toList [] []
    (by decide)
    (fun _ _ _ => Nat.zero_le _)
    (fun hocc => absurd
      ((occurs_iff_two_le_length MARKER [] (by decide)).mp hocc) (by decide))
    (by decide)

/-- Claim C3 (counterexample to the claim as stated): on a last line in which
the marker occurs twice, `"Image Search Suggestion: A Image Search
Suggestion: B"`, the marker is present and followed by non-empty content, yet
the splitter returns `"A"` — the trimmed segment between the first two
occurrences — which is neither the trimmed substring after the first
occurrence (`"A Image Search Suggestion: B"`) nor the one after the last
(`"B"`). -/
theorem splitter_double_marker_takes_middle_segment :
    ("Image Search Suggestion: A Image Search Suggestion: B".toList
        = ([] : Str) ++ MARKER ++ " A Image Search Suggestion: B".toList)
    ∧ pyStrip " A Image Search Suggestion: B".toList ≠ []
    ∧ (splitSuggestion
          "Image Search Suggestion: A Image Search Suggestion: B".toList).2
        = some "A".toList
    ∧ "A".toList ≠ pyStrip " A Image Search Suggestion: B".toList
    ∧ "A".toList ≠ pyStrip " B".toList := by
  refine ⟨by decide, by decide, by decide, by decide, by decide⟩

/-- Claim C3 (amended): if the last line contains the marker exactly once,
written `pre ++ MARKER ++ suf` with the occurrence at `pre` minimal and none
in `suf`, the splitter returns the trimmed `suf` as the suggestion (for
multiple occurrences it returns the segment between the first two, as the
counterexample shows) and the preceding lines rejoined and trimmed as
displayText; if the last line does not contain the marker, it returns the
raw text unchanged with no suggestion.  The spec's two concrete scenarios
hold. -/
theorem splitter_correctness :
    (∀ raw pre suf : Str,
        (pySplit [newlineChar] raw).getLastD [] = pre ++ MARKER ++ suf →
        (∀ p q, pre ++ MARKER ++ suf = p ++ MARKER ++ q → pre.length ≤ p.length) →
        ¬ Occurs MARKER suf →
        splitSuggestion raw
          = (pyStrip (List.intercalate [newlineChar]
              (pySplit [newlineChar] raw).dropLast), some (pyStrip suf)))
    ∧ (∀ raw : Str,
        ¬ Occurs MARKER ((pySplit [newlineChar] raw).getLastD []) →
        splitSuggestion raw = (raw, none))
    ∧ splitSuggestion "Line1\nLine2\nImage Search Suggestion: Foo Bar".toList
        = ("Line1\nLine2".toList, some "Foo Bar".toList)
    ∧ splitSuggestion "Just a reply with no marker".toList
        = ("Just a reply with no marker".toList, none) := by
  refine ⟨splitSuggestion_of_last_eq, splitSuggestion_of_no_marker,
    by decide, by decide⟩

/-- Witness for `splitter_correctness` on the spec's clean input
`"Line1\nLine2\nImage Search Suggestion: Foo Bar"` (first conjunct, with
`pre = []`, `suf = " Foo Bar"`) and no-marker input (second conjunct). -/
theorem splitter_correctness_witness :
    splitSuggestion "Line1\nLine2\nImage Search Suggestion: Foo Bar".toList
        = (pyStrip (List.intercalate [newlineChar]
            (pySplit [newlineChar]
              "Line1\nLine2\nImage Search Suggestion: Foo Bar".toList).dropLast),
           some (pyStrip " Foo Bar".toList))
    ∧ splitSuggestion "no marker here".toList = ("no marker here".toList, none) :=
  ⟨splitter_correctness.1
      "Line1\nLine2\nImage Search Suggestion: Foo Bar".toList [] " Foo Bar".toList
      (by decide)
      (fun _ _ _ => Nat.zero_le _)
      (fun hocc => absurd
        ((occurs_iff_two_le_length MARKER " Foo Bar".toList (by decide)).mp hocc)
        (by decide)),
   splitter_correctness.2.1 "no marker here".toList
      (fun hocc => absurd
        ((occurs_iff_two_le_length MARKER
          ((pySplit [newlineChar] "no marker here".toList).getLastD [])
          (by decide)).mp hocc)
        (by decide))⟩

/-- Claim C4: when the completion call fails — `openai.APIError` or any other
exception — the turn recovers locally: the error banner is shown, the
assistant message stored for the turn is the fixed apology text of that
error class, and no image suggestion is extracted. -/
theorem error_substitution_fixed_apology :
    ∀ (s : Session) (u : Str), u ≠ [] →
      ∀ (grape region : Str) (minP maxP : Nat) (detail : Str),
        ((runTurn s (some u) grape region minP maxP (.apiError detail)).errorBanner
            = true
          ∧ (contentsOf (runTurn s (some u) grape region minP maxP
                (.apiError detail)).session).getLastD ⟨[], []⟩
              = ⟨roleAssistant, APOLOGY_API_ERROR⟩
          ∧ (runTurn s (some u) grape region minP maxP
              (.apiError detail)).imageSearchTerm = none)
        ∧ ((runTurn s (some u) grape region minP maxP
              (.unexpectedError detail)).errorBanner = true
          ∧ (contentsOf (runTurn s (some u) grape region minP maxP
                (.unexpectedError detail)).session).getLastD ⟨[], []⟩
              = ⟨roleAssistant, APOLOGY_UNEXPECTED⟩
          ∧ (runTurn s (some u) grape region minP maxP
              (.unexpectedError detail)).imageSearchTerm = none) := by
  intro s u hu grape region minP maxP detail
  refine ⟨⟨?_, ?_, ?_⟩, ⟨?_, ?_, ?_⟩⟩
  · simp [runTurn, if_neg hu]
  · simp only [runTurn, if_neg hu]
    exact getLastD_contentsOf_appendMsg _ _ _
  · simp [runTurn, if_neg hu]
  · simp [runTurn, if_neg hu]
  · simp only [runTurn, if_neg hu]
    exact getLastD_contentsOf_appendMsg _ _ _
  · simp [runTurn, if_neg hu]

/-- Witness for `error_substitution_fixed_apology` at the seeded session with
input `"hi"` and default filters. -/
theorem error_substitution_fixed_apology_witness :
    "hi".toList ≠ ([] : Str)
    ∧ (((runTurn seededSession (some "hi".toList) "Any".toList "Any".toList 20 80
          (.apiError [])).errorBanner = true
        ∧ (contentsOf (runTurn seededSession (some "hi".toList) "Any".toList
              "Any".toList 20 80 (.apiError [])).session).getLastD ⟨[], []⟩
            = ⟨roleAssistant, APOLOGY_API_ERROR⟩
        ∧ (runTurn seededSession (some "hi".toList) "Any".toList "Any".toList 20 80
            (.apiError [])).imageSearchTerm = none)
      ∧ ((runTurn seededSession (some "hi".toList) "Any".toList "Any".toList 20 80
            (.unexpectedError [])).errorBanner = true
        ∧ (contentsOf (runTurn seededSession (some "hi".toList) "Any".toList
              "Any".toList 20 80 (.unexpectedError [])).session).getLastD ⟨[], []⟩
            = ⟨roleAssistant, APOLOGY_UNEXPECTED⟩
        ∧ (runTurn seededSession (some "hi".toList) "Any".toList "Any".toList 20 80
            (.unexpectedError [])).imageSearchTerm = none)) :=
  ⟨by decide,
   error_substitution_fixed_apology seededSession "hi".toList (by decide)
     "Any".toList "Any".toList 20 80 []⟩

/-- Claim C5 (counterexample to the claim as stated): a whitespace-only
submission `" "` is truthy in Python, so the handler runs: the completion
call is made and the log grows by a turn. -/
theorem blank_input_is_processed :
    (runTurn seededSession (some " ".toList) "Any".toList "Any".toList 20 80
        (.success "ok".toList)).apiCalled = true
    ∧ (runTurn seededSession (some " ".toList) "Any".toList "Any".toList 20 80
        (.success "ok".toList)).session.refs.length
        = seededSession.refs.length + 2 := by
  constructor
  · decide
  · decide

/-- Claim C5 (amended): when no submission occurs or the submission is the
empty string, the handler is skipped entirely: no user message is appended,
no completion call is made, nothing is displayed.  (A whitespace-only but
non-empty submission, however, is processed as a normal turn — see the
counterexample.) -/
theorem empty_input_guard :
    ∀ (s : Session) (grape region : Str) (minP maxP : Nat) (o : ApiOutcome),
      runTurn s none grape region minP maxP o = ⟨s, false, false, [], none⟩
      ∧ runTurn s (some []) grape region minP maxP o
          = ⟨s, false, false, [], none⟩ := by
  intro s grape region minP maxP o
  exact ⟨rfl, rfl⟩

/-- Claim C6: the filter serialization produces exactly the spec's template —
checked literally on the spec's scenario (grape "Any", region "Napa Valley
(USA)", price 20–80) and against the spec-side template definition for all
selections. -/
theorem filter_serialization :
    filter_context "Any".toList "Napa Valley (USA)".toList 20 80
        = "User Preferences: Grape=[Not Specified], Region=[Napa Valley (USA)], Price Range=[$20 - $80].".toList
    ∧ ∀ (grape region : Str) (minP maxP : Nat),
        filter_context grape region minP maxP
          = specSerializeFilters grape region minP maxP := by
  constructor
  · decide
  · intro grape region minP maxP
    have hmerge : ("], Price Range=[".toList : Str) ++ "$".toList
        = "], Price Range=[$".toList := by decide
    simp only [filter_context, specSerializeFilters, price_range_str]
    rw [← hmerge]
    simp [List.append_assoc]

/-- Iterating initialization on an existing log is a no-op. -/
theorem initializeMessages_iterate_some (m : Nat) (s : Session) :
    initializeMessages^[m] (some s) = some s := by
  induction m with
  | zero => rfl
  | succ k ih =>
      rw [Function.iterate_succ_apply]
      exact ih

/-- Claim C7: initializing any positive number of times within a session
yields the seeded log — exactly one system message (the fixed instruction,
first) followed by exactly one fixed assistant welcome message — so calls
after the first are no-ops. -/
theorem initialization_idempotent (n : Nat) (hn : 0 < n) :
    initializeMessages^[n] none = some seededSession
    ∧ contentsOf seededSession
        = [⟨roleSystem, SYSTEM_PRE_PROMPT⟩, ⟨roleAssistant, WELCOME_MESSAGE⟩]
    ∧ ((contentsOf seededSession).filter
        (fun m => decide (m.role = roleSystem))).length = 1 := by
  refine ⟨?_, rfl, by decide⟩
  match n, hn with
  | m + 1, _ =>
    rw [Function.iterate_succ_apply]
    exact initializeMessages_iterate_some m seededSession

/-- Witness for `initialization_idempotent` at `n = 2`, the spec's
"calling initialize twice" scenario. -/
theorem initialization_idempotent_witness :
    0 < 2
    ∧ (initializeMessages^[2] none = some seededSession
      ∧ contentsOf seededSession
          = [⟨roleSystem, SYSTEM_PRE_PROMPT⟩, ⟨roleAssistant, WELCOME_MESSAGE⟩]
      ∧ ((contentsOf seededSession).filter
          (fun m => decide (m.role = roleSystem))).length = 1) :=
  ⟨by decide, initialization_idempotent 2 (by decide)⟩

/-- Claim C8: the displayed history never contains a system-role entry — in
particular the seeded system instruction never appears, whatever its
content. -/
theorem history_excludes_system_role :
    ∀ s : Session,
      (∀ m ∈ historyOf s, m.role ≠ roleSystem)
      ∧ ∀ c : Str, (⟨roleSystem, c⟩ : Message) ∉ historyOf s := by
  intro s
  constructor
  · intro m hm
    have h := List.of_mem_filter hm
    simpa using h
  · intro c hc
    have h := List.of_mem_filter hc
    simp at h

/-- Witness for `history_excludes_system_role` at the seeded session: the
welcome message is in the history and is not system-role; the seeded system
instruction is not in the history. -/
theorem history_excludes_system_role_witness :
    (⟨roleAssistant, WELCOME_MESSAGE⟩ : Message).role ≠ roleSystem
    ∧ (⟨roleSystem, SYSTEM_PRE_PROMPT⟩ : Message) ∉ historyOf seededSession :=
  ⟨(history_excludes_system_role seededSession).1 ⟨roleAssistant, WELCOME_MESSAGE⟩
      (by decide),
   (history_excludes_system_role seededSession).2 SYSTEM_PRE_PROMPT⟩

/-- Claim C9: with no key in the secrets store and none in the environment
the app shows the warning and halts before any interaction (the turn handler
never runs, the session is untouched, no call is made); with a key in the
secrets store, or a non-empty one in the environment, startup proceeds to the
normal handler.  An environment value that is present but empty is falsy in
Python, so it also halts. -/
theorem startup_credential_check :
    (∀ (s : Session) (inp : Option Str) (grape region : Str) (minP maxP : Nat)
        (o : ApiOutcome),
        appStep none none s inp grape region minP maxP o
          = (true, ⟨s, false, false, [], none⟩))
    ∧ (∀ (k : Str) (env : Option Str) (s : Session) (inp : Option Str)
        (grape region : Str) (minP maxP : Nat) (o : ApiOutcome),
        appStep (some k) env s inp grape region minP maxP o
          = (false, runTurn s inp grape region minP maxP o))
    ∧ (∀ (k : Str), k ≠ [] →
        ∀ (s : Session) (inp : Option Str) (grape region : Str)
          (minP maxP : Nat) (o : ApiOutcome),
          appStep none (some k) s inp grape region minP maxP o
            = (false, runTurn s inp grape region minP maxP o))
    ∧ (∀ (s : Session) (inp : Option Str) (grape region : Str) (minP maxP : Nat)
        (o : ApiOutcome),
        appStep none (some []) s inp grape region minP maxP o
          = (true, ⟨s, false, false, [], none⟩)) := by
  refine ⟨fun _ _ _ _ _ _ _ => rfl, fun _ _ _ _ _ _ _ _ _ => rfl, ?_,
    fun _ _ _ _ _ _ _ => rfl⟩
  intro k hk s inp grape region minP maxP o
  simp only [appStep, startupCheck, if_neg hk]

/-- Witness for `startup_credential_check`: a concrete non-empty
environment key proceeds. -/
theorem startup_credential_check_witness :
    appStep none (some "sk-env-key".toList) seededSession none "Any".toList
        "Any".toList 20 80 (.apiError [])
      = (false, runTurn seededSession none "Any".toList "Any".toList 20 80
          (.apiError [])) :=
  startup_credential_check.2.2.1 "sk-env-key".toList (by decide) seededSession
    none "Any".toList "Any".toList 20 80 (.apiError [])

/-- Claim C10: every non-empty submission grows the stored log by exactly two
entries, in order a user-role one then an assistant-role one, whatever the
completion outcome; all previously stored entries survive unchanged. -/
theorem turn_appends_user_then_assistant :
    ∀ (s : Session) (u : Str), u ≠ [] → WfSession s →
      ∀ (grape region : Str) (minP maxP : Nat) (o : ApiOutcome),
        ∃ c1 c2 : Str,
          contentsOf (runTurn s (some u) grape region minP maxP o).session
            = contentsOf s ++ [⟨roleUser, c1⟩, ⟨roleAssistant, c2⟩] := by
  intro s u hu hwf grape region minP maxP o
  exact ⟨_, _, contentsOf_runTurn s u hu hwf grape region minP maxP o⟩

/-- Witness for `turn_appends_user_then_assistant` at the seeded session with
input `"hi"` and a failing completion call. -/
theorem turn_appends_user_then_assistant_witness :
    "hi".toList ≠ ([] : Str)
    ∧ WfSession seededSession
    ∧ ∃ c1 c2 : Str,
        contentsOf (runTurn seededSession (some "hi".toList) "Any".toList
            "Any".toList 20 80 (.unexpectedError [])).session
          = contentsOf seededSession ++ [⟨roleUser, c1⟩, ⟨roleAssistant, c2⟩] :=
  ⟨by decide,
   by unfold WfSession; decide,
   turn_appends_user_then_assistant seededSession "hi".toList (by decide)
     (by unfold WfSession; decide) "Any".toList "Any".toList 20 80
     (.unexpectedError [])⟩

end WineAI
